import Mathlib

/-!
# memepen-services: the text compositing engine of `pkg/meme/service.go`

A shallow embedding of `Service.CreateMeme`, `Service.CreateMemeFromTemplateID`,
`drawTextField`, `getAnchorCoordinates`, `drawTextStroke`, `drawText` and
`rotateText`, followed by theorems about them.

The drawing context of the graphics library (`gg.Context`) is represented by the
state the functions read (current font face, current colour) together with the
ordered record of the calls that change the canvas or the coordinate frame
(`DrawStringWrapped`, `RotateAbout`).  Values of type `uint16` are natural numbers
reduced modulo `65536` at every arithmetic step, as the Go operators do.
-/

namespace Memepen

/-! ## Data model (package `template`, as used by `service.go`) -/

/-- An `error` value handed back by a collaborator. -/
structure Error where
  msg : String
  deriving DecidableEq

/-- A parsed font file (`*truetype.Font`), identified by its name. -/
structure TruetypeFont where
  name : String
  deriving DecidableEq

/-- A decoded background raster (`image.Image` as returned by the image getter). -/
structure Image where
  ID : String
  deriving DecidableEq

/-- Modelled from the spec: the declaration of `Font` (package `template`) is not among
the sources. Family name, size in points, fill colour; `Size` is an unsigned integer
(`service.go` converts it with `float64(...)` and `uint16(.../2)`). -/
structure Font where
  Family : String
  Size : Nat
  Color : String
  deriving DecidableEq

/-- Modelled from the spec: the declaration of `Stroke` (package `template`) is not
among the sources. Radius in pixels (at least 0) and colour; `Size` is an unsigned
integer narrower than `int`, so that `int(style.Stroke.Size)` and the squares formed
from it are exact. -/
structure Stroke where
  Size : Nat
  Color : String
  deriving DecidableEq

/-- Modelled from the spec: the declaration of `Rotation` (package `template`) is not
among the sources. The angle in degrees, of either sign. -/
structure Rotation where
  Degrees : ℚ
  deriving DecidableEq

/-- Modelled from the spec: the declaration of `TextStyle` (package `template`) is not
among the sources. Box origin, box width, font, optional stroke, optional rotation.
`X`, `Y` and `Width` are `uint16` (`getAnchorCoordinates` returns their sums as `uint16`
without conversion), here natural numbers below `65536`. -/
structure TextStyle where
  X : Nat
  Y : Nat
  Width : Nat
  Font : Font
  Stroke : Option Stroke
  Rotation : Option Rotation
  deriving DecidableEq

/-- Modelled from the spec: the declaration of the `Image` record of a template is not
among the sources. The reference to the background image and the canvas size. -/
structure TemplateImage where
  ID : String
  Width : Nat
  Height : Nat
  deriving DecidableEq

/-- Modelled from the spec: the declaration of `Template` (package `template`) is not
among the sources. Identifier, background image and the ordered text fields. -/
structure Template where
  ID : String
  Image : TemplateImage
  TextStyles : List TextStyle
  deriving DecidableEq

/-! ## The graphics library interface (`github.com/fogleman/gg`) -/

/-- A font face: the built-in face of a new context, or `truetype.NewFace(font, size)`. -/
inductive FontFace where
  | basic
  | truetype (font : TruetypeFont) (size : Nat)
  deriving DecidableEq

/-- Horizontal alignment argument of `DrawStringWrapped`. -/
inductive Align where
  | AlignLeft
  | AlignCenter
  | AlignRight
  deriving DecidableEq

/-- A recorded call on the drawing context. A draw records the colour and the face
that were current when it was issued. -/
inductive Call where
  | RotateAbout (angle : ℚ) (x y : Nat)
  | DrawStringWrapped (color : Option String) (face : FontFace) (s : String)
      (x y : Nat) (ax ay : ℚ) (width : Nat) (lineSpacing : ℚ) (align : Align)
  deriving DecidableEq

/-- The pure functions of the graphics library the service relies on: the word
wrapper (which depends on the metrics of the current face) and the conversion from
degrees to radians. -/
structure GG where
  WordWrap : FontFace → String → Nat → List String
  Radians : ℚ → ℚ

/-- The drawing context: background image, current face, current colour, and the
calls issued so far, oldest first. -/
structure Context where
  im : Image
  fontFace : FontFace
  color : Option String
  calls : List Call
  deriving DecidableEq

/-- `gg.NewContextForImage`. -/
def NewContextForImage (img : Image) : Context :=
  { im := img, fontFace := FontFace.basic, color := none, calls := [] }

/-- `dc.SetFontFace`. -/
def Context.SetFontFace (dc : Context) (face : FontFace) : Context :=
  { dc with fontFace := face }

/-- `dc.SetHexColor`. -/
def Context.SetHexColor (dc : Context) (c : String) : Context :=
  { dc with color := some c }

/-- `dc.RotateAbout`. -/
def Context.RotateAbout (dc : Context) (angle : ℚ) (x y : Nat) : Context :=
  { dc with calls := dc.calls ++ [Call.RotateAbout angle x y] }

/-- `dc.DrawStringWrapped`. -/
def Context.DrawStringWrapped (dc : Context) (s : String) (x y : Nat) (ax ay : ℚ)
    (width : Nat) (lineSpacing : ℚ) (align : Align) : Context :=
  { dc with calls := dc.calls ++
      [Call.DrawStringWrapped dc.color dc.fontFace s x y ax ay width lineSpacing align] }

/-- `dc.WordWrap`. -/
def Context.WordWrap (gg : GG) (dc : Context) (s : String) (w : Nat) : List String :=
  gg.WordWrap dc.fontFace s w

/-- The finished image (`dc.Image()`): the background and everything drawn on it. -/
structure Rendered where
  im : Image
  calls : List Call
  deriving DecidableEq

/-- `dc.Image`. -/
def Context.Image (dc : Context) : Rendered :=
  { im := dc.im, calls := dc.calls }

/-! ## Machine integers -/

/-- Conversion of an `int` to `uint16`. -/
def uint16 (x : Int) : Nat := (x % 65536).toNat

/-- Addition of two `uint16` values. -/
def add16 (a b : Nat) : Nat := (a + b) % 65536

/-- Multiplication of two `uint16` values. -/
def mul16 (a b : Nat) : Nat := (a * b) % 65536

/-! ## `service.go` -/

/-- `rotateText`: rotate the frame, run the callback, and run the deferred
counter-rotation on return. -/
def rotateText (gg : GG) (dc : Context) (style : TextStyle) (anchorX anchorY : Nat)
    (fn : Context → Context) : Context × Option Error :=
  match style.Rotation with
  | some rotation =>
    let radians := gg.Radians rotation.Degrees
    let dc := dc.RotateAbout radians anchorX anchorY
    let dc := fn dc
    let dc := if radians ≥ 0 then dc.RotateAbout (-radians) anchorX anchorY
      else dc.RotateAbout |radians| anchorX anchorY
    (dc, none)
  | none => (fn dc, none)

/-- `drawText`: the fill pass. -/
def drawText (gg : GG) (dc : Context) (text : String) (style : TextStyle)
    (anchorX anchorY : Nat) : Context × Option Error :=
  match rotateText gg dc style anchorX anchorY (fun dc =>
      (dc.SetHexColor style.Font.Color).DrawStringWrapped text anchorX anchorY
        (1/2) (1/2) style.Width (3/2) Align.AlignCenter) with
  | (dc, some err) => (dc, some err)
  | (dc, none) => (dc, none)

/-- The integers `lo, lo+1, ..., hi` visited by `for v := lo; v <= hi; v++`. -/
def loopRange (lo hi : Int) : List Int :=
  (List.range (hi - lo + 1).toNat).map (fun (k : Nat) => lo + (k : Int))

/-- The inner loop of `drawTextStroke` (over `x`) for one value of `y`. -/
def drawTextStroke.inner (gg : GG) (text : String) (style : TextStyle)
    (anchorX anchorY : Nat) (strokeSize y : Int) : List Int → Context → Context × Option Error
  | [], dc => (dc, none)
  | x :: xs, dc =>
    if x * x + y * y ≥ strokeSize * strokeSize then
      drawTextStroke.inner gg text style anchorX anchorY strokeSize y xs dc
    else
      let strokeX := add16 anchorX (uint16 x)
      let strokeY := add16 anchorY (uint16 y)
      match rotateText gg dc style anchorX anchorY (fun dc =>
          dc.DrawStringWrapped text strokeX strokeY (1/2) (1/2) style.Width (3/2)
            Align.AlignCenter) with
      | (dc, some err) => (dc, some err)
      | (dc, none) => drawTextStroke.inner gg text style anchorX anchorY strokeSize y xs dc

/-- The outer loop of `drawTextStroke` (over `y`). -/
def drawTextStroke.outer (gg : GG) (text : String) (style : TextStyle)
    (anchorX anchorY : Nat) (strokeSize : Int) : List Int → Context → Context × Option Error
  | [], dc => (dc, none)
  | y :: ys, dc =>
    match drawTextStroke.inner gg text style anchorX anchorY strokeSize y
        (loopRange (-strokeSize) strokeSize) dc with
    | (dc, some err) => (dc, some err)
    | (dc, none) => drawTextStroke.outer gg text style anchorX anchorY strokeSize ys dc

/-- `drawTextStroke`: the outline pass. -/
def drawTextStroke (gg : GG) (dc : Context) (text : String) (style : TextStyle)
    (anchorX anchorY : Nat) : Context × Option Error :=
  match style.Stroke with
  | some stroke =>
    let dc := dc.SetHexColor stroke.Color
    let strokeSize : Int := (stroke.Size : Int)
    drawTextStroke.outer gg text style anchorX anchorY strokeSize
      (loopRange (-strokeSize) strokeSize) dc
  | none => (dc, none)

/-- `getAnchorCoordinates`. -/
def getAnchorCoordinates (gg : GG) (dc : Context) (text : String) (style : TextStyle) :
    Nat × Nat × Option Error :=
  let lines := (dc.WordWrap gg text style.Width).length
  let x := add16 (style.Width / 2) style.X
  let y := add16 style.Y (mul16 (uint16 ((style.Font.Size / 2 : Nat) : Int)) (uint16 (lines : Int)))
  (x, y, none)

/-- `drawTextField`. -/
def drawTextField (gg : GG) (dc : Context) (text : String) (style : TextStyle)
    (font : TruetypeFont) : Context × Option Error :=
  let face := FontFace.truetype font style.Font.Size
  let dc := dc.SetFontFace face
  match getAnchorCoordinates gg dc text style with
  | (_, _, some err) => (dc, some err)
  | (anchorX, anchorY, none) =>
    match drawTextStroke gg dc text style anchorX anchorY with
    | (dc, some err) => (dc, some err)
    | (dc, none) =>
      match drawText gg dc text style anchorX anchorY with
      | (dc, some err) => (dc, some err)
      | (dc, none) => (dc, none)

/-- Modelled from the spec: the getter interfaces of the packages `font`, `image` and
`template` are not among the sources. Each lookup by name or identifier returns the
resource or fails with an error. These are the collaborators held by `Service` that
image creation uses. -/
structure Service where
  fontRepository : String → Except Error TruetypeFont
  imageRepository : String → Except Error Image
  templateRepository : String → Except Error Template

/-- What a call of `CreateMeme` does: it returns the pair `(image, error)`, or the
run-time aborts on `text[i]` with an index out of range, the drawing context being
as it stood at that moment. -/
inductive Outcome where
  | returns (img : Option Rendered) (err : Option Error)
  | indexOutOfRange (dc : Context)
  deriving DecidableEq

/-- The `for i, textStyle := range template.TextStyles` loop of `CreateMeme`. -/
def CreateMeme.loop (gg : GG) (s : Service) (text : List String) :
    Nat → List TextStyle → Context → Outcome
  | _, [], dc => Outcome.returns (some dc.Image) none
  | i, textStyle :: rest, dc =>
    let style := textStyle
    match s.fontRepository textStyle.Font.Family with
    | Except.error err => Outcome.returns none (some err)
    | Except.ok font =>
      match text[i]? with
      | none => Outcome.indexOutOfRange dc
      | some t =>
        match drawTextField gg dc t style font with
        | (_, some err) => Outcome.returns none (some err)
        | (dc, none) => CreateMeme.loop gg s text (i + 1) rest dc

/-- `Service.CreateMeme`. -/
def CreateMeme (gg : GG) (s : Service) (template : Template) (text : List String) : Outcome :=
  match s.imageRepository template.Image.ID with
  | Except.error err => Outcome.returns none (some err)
  | Except.ok img =>
    let dc := NewContextForImage img
    CreateMeme.loop gg s text 0 template.TextStyles dc

/-- `Service.CreateMemeFromTemplateID`. -/
def CreateMemeFromTemplateID (gg : GG) (s : Service) (templateID : String)
    (text : List String) : Outcome :=
  match s.templateRepository templateID with
  | Except.error err => Outcome.returns none (some err)
  | Except.ok template => CreateMeme gg s template text

/-! ## Vocabulary of the statements -/

/-- Whether a recorded call is a text draw. -/
def Call.isDraw : Call → Bool
  | Call.DrawStringWrapped _ _ _ _ _ _ _ _ _ _ => true
  | Call.RotateAbout _ _ _ => false

/-- Whether a recorded call is a rotation of the frame. -/
def Call.isRotate : Call → Bool
  | Call.RotateAbout _ _ _ => true
  | Call.DrawStringWrapped _ _ _ _ _ _ _ _ _ _ => false

/-- The offsets `(dx, dy)` the loops of `drawTextStroke` select for radius `r`, in the
order in which the loops reach them (rows of constant `dy`, top to bottom). -/
def strokeOffsets (r : Nat) : List (Int × Int) :=
  (loopRange (-(r : Int)) r).flatMap (fun y =>
    ((loopRange (-(r : Int)) r).filter (fun x => decide (x * x + y * y < (r : Int) * r))).map
      (fun x => (x, y)))

/-- The calls of one rotation scope around `body`: with a rotation configured, the
rotation by the angle in radians about `(ax, ay)`, the body, and the opposite rotation
about the same point; without one, the body alone. -/
def rotationScope (gg : GG) (style : TextStyle) (ax ay : Nat) (body : List Call) : List Call :=
  match style.Rotation with
  | some rotation =>
    Call.RotateAbout (gg.Radians rotation.Degrees) ax ay ::
      (body ++ [Call.RotateAbout (-(gg.Radians rotation.Degrees)) ax ay])
  | none => body

/-- The draw of the text block in colour `color` at the point `(x, y)`: centred on the
point, wrapped at the width of the field, line spacing 1.5, centre-aligned. -/
def blockDraw (color : String) (face : FontFace) (text : String) (style : TextStyle)
    (x y : Nat) : Call :=
  Call.DrawStringWrapped (some color) face text x y (1/2) (1/2) style.Width (3/2)
    Align.AlignCenter

/-- The draw of the outline pass for the offset `d` from the anchor `(ax, ay)`. -/
def strokeDraw (stroke : Stroke) (face : FontFace) (text : String) (style : TextStyle)
    (ax ay : Nat) (d : Int × Int) : Call :=
  blockDraw stroke.Color face text style (add16 ax (uint16 d.1)) (add16 ay (uint16 d.2))

/-- The calls of the outline pass: one scope per selected offset. -/
def strokeCalls (gg : GG) (face : FontFace) (text : String) (style : TextStyle)
    (ax ay : Nat) : List Call :=
  match style.Stroke with
  | some stroke =>
    (strokeOffsets stroke.Size).flatMap (fun d =>
      rotationScope gg style ax ay [strokeDraw stroke face text style ax ay d])
  | none => []

/-- The calls one row of the outline pass records. -/
def rowCalls (gg : GG) (color : Option String) (face : FontFace) (text : String)
    (style : TextStyle) (ax ay : Nat) (s y : Int) (xs : List Int) : List Call :=
  (xs.filter (fun x => decide (x * x + y * y < s * s))).flatMap (fun x =>
    rotationScope gg style ax ay
      [Call.DrawStringWrapped color face text (add16 ax (uint16 x)) (add16 ay (uint16 y))
        (1/2) (1/2) style.Width (3/2) Align.AlignCenter])

/-- The calls `drawTextField` records for one field whose anchor is `(ax, ay)`: the
outline pass, then the scope of the fill draw. -/
def fieldCalls (gg : GG) (face : FontFace) (text : String) (style : TextStyle)
    (ax ay : Nat) : List Call :=
  strokeCalls gg face text style ax ay ++
    rotationScope gg style ax ay [blockDraw style.Font.Color face text style ax ay]

/-- The font the repository holds for a family, or a placeholder when it holds none. -/
def fontOr (s : Service) (family : String) : TruetypeFont :=
  match s.fontRepository family with
  | Except.ok f => f
  | Except.error _ => ⟨""⟩

/-- Some lookup that `CreateMemeFromTemplateID` performs fails: the template lookup,
or the background-image lookup of the template found, or the font lookup of one of
its fields. -/
def LookupFails (s : Service) (templateID : String) : Prop :=
  (∃ e, s.templateRepository templateID = Except.error e) ∨
    ∃ t, s.templateRepository templateID = Except.ok t ∧
      ((∃ e, s.imageRepository t.Image.ID = Except.error e) ∨
        ∃ st ∈ t.TextStyles, ∃ e, s.fontRepository st.Font.Family = Except.error e)

/-- The error `e` is the one returned by the first lookup that fails, in the order in
which `CreateMemeFromTemplateID` performs them: template, background image, then the
font of each field in template order. -/
def FirstFailure (s : Service) (templateID : String) (e : Error) : Prop :=
  s.templateRepository templateID = Except.error e ∨
    ∃ t, s.templateRepository templateID = Except.ok t ∧
      (s.imageRepository t.Image.ID = Except.error e ∨
        ((∃ img, s.imageRepository t.Image.ID = Except.ok img) ∧
          ∃ pre st post, t.TextStyles = pre ++ st :: post ∧
            (∀ p ∈ pre, ∃ f, s.fontRepository p.Font.Family = Except.ok f) ∧
            s.fontRepository st.Font.Family = Except.error e))

/-! ## Fixtures: the default templates and a test service -/

/-- A graphics library whose face is so wide that every text wraps to two lines; its
radians are degrees times 355/113/180. -/
def wideGG : GG where
  WordWrap := fun _ s _ => [s, ""]
  Radians := fun d => d * 355 / (113 * 180)

/-- The first field of the template `yall-got-any-more-of-them` (`consts.go`). -/
def topField : TextStyle :=
  { X := 10, Y := 10, Width := 580,
    Font := { Family := "Impact", Size := 40, Color := "#FFFFFF" },
    Stroke := some { Size := 4, Color := "#000000" },
    Rotation := none }

/-- The second field of the template `yall-got-any-more-of-them` (`consts.go`). -/
def bottomField : TextStyle :=
  { X := 10, Y := 421, Width := 580,
    Font := { Family := "Impact", Size := 40, Color := "#FFFFFF" },
    Stroke := some { Size := 4, Color := "#000000" },
    Rotation := none }

/-- The template `yall-got-any-more-of-them` (`consts.go`). -/
def yallGotAnyMoreOfThem : Template :=
  { ID := "yall-got-any-more-of-them",
    Image := { ID := "yall-got-any-more-of-them", Width := 600, Height := 471 },
    TextStyles := [topField, bottomField] }

/-- The first field of the template `two-buttons` (`consts.go`). -/
def leftButton : TextStyle :=
  { X := 80, Y := 110, Width := 100,
    Font := { Family := "Arial", Size := 20, Color := "#000000" },
    Stroke := none,
    Rotation := some { Degrees := -10 } }

/-- The second field of the template `two-buttons` (`consts.go`). -/
def rightButton : TextStyle :=
  { X := 245, Y := 80, Width := 100,
    Font := { Family := "Arial", Size := 20, Color := "#000000" },
    Stroke := none,
    Rotation := some { Degrees := -10 } }

/-- A template with the two rotated fields of `two-buttons`. -/
def twoButtons : Template :=
  { ID := "two-buttons",
    Image := { ID := "two-buttons", Width := 500, Height := 756 },
    TextStyles := [leftButton, rightButton] }

/-- A field with an outline of radius 2 and a rotation, at the left edge of the canvas. -/
def edgeField : TextStyle :=
  { X := 0, Y := 100, Width := 1,
    Font := { Family := "Impact", Size := 40, Color := "#FFFFFF" },
    Stroke := some { Size := 2, Color := "#000000" },
    Rotation := some { Degrees := 90 } }

/-- A field whose box starts at the largest `uint16` abscissa. -/
def farField : TextStyle :=
  { X := 65535, Y := 10, Width := 2,
    Font := { Family := "Impact", Size := 40, Color := "#FFFFFF" },
    Stroke := none,
    Rotation := none }

/-- A service whose repositories hold the fonts `Impact` and `Arial`, the two
background images and the two templates above, and nothing else. -/
def testService : Service where
  fontRepository := fun family =>
    if family = "Impact" then Except.ok ⟨"impact.ttf"⟩
    else if family = "Arial" then Except.ok ⟨"arial.ttf"⟩
    else Except.error ⟨"font not found"⟩
  imageRepository := fun id =>
    if id = "yall-got-any-more-of-them" then Except.ok ⟨"yall-got-any-more-of-them"⟩
    else if id = "two-buttons" then Except.ok ⟨"two-buttons"⟩
    else Except.error ⟨"image not found"⟩
  templateRepository := fun id =>
    if id = "yall-got-any-more-of-them" then Except.ok yallGotAnyMoreOfThem
    else if id = "two-buttons" then Except.ok twoButtons
    else Except.error ⟨"template not found"⟩

/-- A field with an outline of radius 2 and no rotation whose anchor abscissa is 0. -/
def cornerField : TextStyle :=
  { X := 0, Y := 60, Width := 1,
    Font := { Family := "Impact", Size := 40, Color := "#FFFFFF" },
    Stroke := some { Size := 2, Color := "#000000" },
    Rotation := none }

/-! ## Lemmas: what each function of `service.go` records -/

/-- `rotateText` around a single draw records the rotation scope of that draw. -/
theorem rotateText_draw (gg : GG) (dc : Context) (style : TextStyle) (ax ay : Nat)
    (text : String) (x y : Nat) (a b : ℚ) (w : Nat) (l : ℚ) (al : Align) :
    rotateText gg dc style ax ay (fun d => d.DrawStringWrapped text x y a b w l al) =
      ({ dc with calls := dc.calls ++ (rotationScope gg style ax ay
          [Call.DrawStringWrapped dc.color dc.fontFace text x y a b w l al]) }, none) := by
  unfold rotateText rotationScope
  cases hrot : style.Rotation with
  | none => simp [Context.DrawStringWrapped]
  | some rotation =>
    by_cases hr : gg.Radians rotation.Degrees ≥ 0
    · simp [hr, Context.RotateAbout, Context.DrawStringWrapped]
    · have hneg : gg.Radians rotation.Degrees < 0 := lt_of_not_ge hr
      simp [hr, Context.RotateAbout, Context.DrawStringWrapped, abs_of_neg hneg]

/-- `rotateText` around the fill callback sets the colour and records the scope of the
fill draw. -/
theorem rotateText_fill (gg : GG) (dc : Context) (style : TextStyle) (ax ay : Nat)
    (text : String) (c : String) (x y : Nat) (a b : ℚ) (w : Nat) (l : ℚ) (al : Align) :
    rotateText gg dc style ax ay
        (fun d => (d.SetHexColor c).DrawStringWrapped text x y a b w l al) =
      ({ dc with color := some c, calls := dc.calls ++ (rotationScope gg style ax ay
          [Call.DrawStringWrapped (some c) dc.fontFace text x y a b w l al]) }, none) := by
  unfold rotateText rotationScope
  cases hrot : style.Rotation with
  | none => simp [Context.DrawStringWrapped, Context.SetHexColor]
  | some rotation =>
    by_cases hr : gg.Radians rotation.Degrees ≥ 0
    · simp [hr, Context.RotateAbout, Context.DrawStringWrapped, Context.SetHexColor]
    · have hneg : gg.Radians rotation.Degrees < 0 := lt_of_not_ge hr
      simp [hr, Context.RotateAbout, Context.DrawStringWrapped, Context.SetHexColor,
        abs_of_neg hneg]

/-- The inner loop never fails and records the calls of its row. -/
theorem inner_eq (gg : GG) (text : String) (style : TextStyle) (ax ay : Nat) (s y : Int)
    (xs : List Int) (dc : Context) :
    drawTextStroke.inner gg text style ax ay s y xs dc =
      ({ dc with calls := dc.calls ++
          rowCalls gg dc.color dc.fontFace text style ax ay s y xs }, none) := by
  induction xs generalizing dc with
  | nil => simp [drawTextStroke.inner, rowCalls]
  | cons x xs ih =>
    unfold drawTextStroke.inner
    by_cases hsel : x * x + y * y ≥ s * s
    · have hlt : ¬ (x * x + y * y < s * s) := not_lt.mpr hsel
      simp only [hsel, if_true, ih]
      simp [rowCalls, List.filter_cons, hlt]
    · have hlt : x * x + y * y < s * s := lt_of_not_ge hsel
      simp only [hsel, if_false, rotateText_draw, ih]
      simp [rowCalls, List.filter_cons, hlt, List.append_assoc]

/-- The outer loop never fails and records the calls of all its rows. -/
theorem outer_eq (gg : GG) (text : String) (style : TextStyle) (ax ay : Nat) (s : Int)
    (ys : List Int) (dc : Context) :
    drawTextStroke.outer gg text style ax ay s ys dc =
      ({ dc with calls := dc.calls ++ ys.flatMap (fun y =>
          rowCalls gg dc.color dc.fontFace text style ax ay s y (loopRange (-s) s)) },
        none) := by
  induction ys generalizing dc with
  | nil => simp [drawTextStroke.outer]
  | cons y ys ih =>
    unfold drawTextStroke.outer
    simp only [inner_eq, ih]
    simp [List.append_assoc]

/-- The calls of the outline pass, row by row. -/
theorem strokeCalls_eq_rows (gg : GG) (face : FontFace) (text : String) (style : TextStyle)
    (ax ay : Nat) (stroke : Stroke) (h : style.Stroke = some stroke) :
    strokeCalls gg face text style ax ay =
      (loopRange (-(stroke.Size : Int)) stroke.Size).flatMap (fun y =>
        rowCalls gg (some stroke.Color) face text style ax ay stroke.Size y
          (loopRange (-(stroke.Size : Int)) stroke.Size)) := by
  simp only [strokeCalls, h, strokeOffsets, List.flatMap_assoc, List.flatMap_map, rowCalls,
    strokeDraw, blockDraw]

/-- `drawTextStroke` never fails; it sets the stroke colour and records `strokeCalls`. -/
theorem drawTextStroke_eq (gg : GG) (dc : Context) (text : String) (style : TextStyle)
    (ax ay : Nat) :
    drawTextStroke gg dc text style ax ay =
      ({ dc with
          color := (match style.Stroke with
            | some stroke => some stroke.Color
            | none => dc.color),
          calls := dc.calls ++ strokeCalls gg dc.fontFace text style ax ay }, none) := by
  cases h : style.Stroke with
  | none => simp [drawTextStroke, h, strokeCalls]
  | some stroke =>
    rw [strokeCalls_eq_rows gg dc.fontFace text style ax ay stroke h]
    simp [drawTextStroke, h, outer_eq, Context.SetHexColor]

/-- `drawText` never fails; it sets the fill colour and records the scope of the fill
draw. -/
theorem drawText_eq (gg : GG) (dc : Context) (text : String) (style : TextStyle)
    (ax ay : Nat) :
    drawText gg dc text style ax ay =
      ({ dc with
          color := some style.Font.Color,
          calls := dc.calls ++ (rotationScope gg style ax ay
            [blockDraw style.Font.Color dc.fontFace text style ax ay]) }, none) := by
  simp [drawText, rotateText_fill, blockDraw]

/-- `drawTextField` never fails; it records `fieldCalls` at the anchor it computes. -/
theorem drawTextField_eq (gg : GG) (dc : Context) (text : String) (style : TextStyle)
    (font : TruetypeFont) :
    drawTextField gg dc text style font =
      ({ im := dc.im,
         fontFace := FontFace.truetype font style.Font.Size,
         color := some style.Font.Color,
         calls := dc.calls ++ fieldCalls gg (FontFace.truetype font style.Font.Size) text style
           (getAnchorCoordinates gg (dc.SetFontFace (FontFace.truetype font style.Font.Size))
             text style).1
           (getAnchorCoordinates gg (dc.SetFontFace (FontFace.truetype font style.Font.Size))
             text style).2.1 }, none) := by
  simp [drawTextField, getAnchorCoordinates, drawTextStroke_eq, drawText_eq, fieldCalls,
    Context.SetFontFace, List.append_assoc]

/-- The loop visits exactly the integers from `lo` to `hi`. -/
theorem mem_loopRange (lo hi x : Int) : x ∈ loopRange lo hi ↔ lo ≤ x ∧ x ≤ hi := by
  simp only [loopRange, List.mem_map, List.mem_range]
  constructor
  · rintro ⟨k, hk, rfl⟩
    omega
  · rintro ⟨h1, h2⟩
    exact ⟨(x - lo).toNat, by omega, by omega⟩

/-- The loop visits no integer twice. -/
theorem nodup_loopRange (lo hi : Int) : (loopRange lo hi).Nodup := by
  unfold loopRange
  apply List.Nodup.map _ (List.nodup_range _)
  intro a b hab
  simpa using hab

/-- The selected offsets are exactly the pairs inside the square and strictly inside
the circle. -/
theorem mem_strokeOffsets (r : Nat) (dx dy : Int) :
    (dx, dy) ∈ strokeOffsets r ↔
      -(r : Int) ≤ dx ∧ dx ≤ r ∧ -(r : Int) ≤ dy ∧ dy ≤ r ∧ dx * dx + dy * dy < (r : Int) * r := by
  simp only [strokeOffsets, List.mem_flatMap, List.mem_map, List.mem_filter, mem_loopRange,
    decide_eq_true_eq, Prod.mk.injEq]
  constructor
  · rintro ⟨y, hy, x, ⟨hx, hsel⟩, rfl, rfl⟩
    exact ⟨hx.1, hx.2, hy.1, hy.2, hsel⟩
  · rintro ⟨h1, h2, h3, h4, h5⟩
    exact ⟨dy, ⟨h3, h4⟩, dx, ⟨⟨h1, h2⟩, h5⟩, rfl, rfl⟩

/-- No offset is selected twice. -/
theorem nodup_strokeOffsets (r : Nat) : (strokeOffsets r).Nodup := by
  unfold strokeOffsets
  rw [List.nodup_flatMap]
  refine ⟨?_, ?_⟩
  · intro y _
    apply List.Nodup.map
    · intro a b hab
      simpa using hab
    · exact (nodup_loopRange _ _).filter _
  · apply (nodup_loopRange _ _).pairwise_of_forall_ne
    intro y _ y' _ hne
    simp only [Function.onFun, List.disjoint_left, List.mem_map, not_exists, not_and]
    rintro ⟨a, b⟩ ⟨x, _, hx⟩ x' _ hx'
    simp only [Prod.mk.injEq] at hx hx'
    exact hne (hx.2.trans hx'.2.symm)

/-- Radius 1 selects the centre alone. -/
theorem strokeOffsets_one : strokeOffsets 1 = [(0, 0)] := by decide

/-- Radius 2 selects nine offsets. -/
theorem strokeOffsets_two : (strokeOffsets 2).length = 9 := by decide

/-- `drawTextField` returns a nil error. -/
theorem drawTextField_no_error (gg : GG) (dc : Context) (text : String) (style : TextStyle)
    (font : TruetypeFont) : (drawTextField gg dc text style font).2 = none := by
  rw [drawTextField_eq]

/-- `drawTextField` keeps the background image. -/
theorem drawTextField_im (gg : GG) (dc : Context) (text : String) (style : TextStyle)
    (font : TruetypeFont) : (drawTextField gg dc text style font).1.im = dc.im := by
  rw [drawTextField_eq]

/-- The calls `drawTextField` adds do not depend on the context it starts from. -/
theorem drawTextField_calls (gg : GG) (dc : Context) (img : Image) (text : String)
    (style : TextStyle) (font : TruetypeFont) :
    (drawTextField gg dc text style font).1.calls =
      dc.calls ++ (drawTextField gg (NewContextForImage img) text style font).1.calls := by
  simp [drawTextField_eq, getAnchorCoordinates, Context.WordWrap, Context.SetFontFace,
    NewContextForImage]

/-- When every font is found and the text list is long enough, the loop returns the
image with the calls of all fields in order. -/
theorem loop_all_ok (gg : GG) (s : Service) (text : List String)
    (fonts : String → TruetypeFont) (styles : List TextStyle) :
    ∀ (i : Nat) (dc : Context),
      (∀ st ∈ styles, s.fontRepository st.Font.Family = Except.ok (fonts st.Font.Family)) →
      i + styles.length ≤ text.length →
      CreateMeme.loop gg s text i styles dc =
        Outcome.returns (some ⟨dc.im, dc.calls ++ (styles.zip (text.drop i)).flatMap (fun p =>
          (drawTextField gg (NewContextForImage dc.im) p.2 p.1
            (fonts p.1.Font.Family)).1.calls)⟩) none := by
  induction styles with
  | nil =>
    intro i dc _ _
    simp [CreateMeme.loop, Context.Image]
  | cons st rest ih =>
    intro i dc hfonts hlen
    have hi : i < text.length := by
      simp only [List.length_cons] at hlen
      omega
    have hdrop : text.drop i = text[i] :: text.drop (i + 1) := List.drop_eq_getElem_cons hi
    have hget : text[i]? = some text[i] := List.getElem?_eq_getElem hi
    have hfont := hfonts st (List.mem_cons_self _ _)
    have hrest : ∀ p ∈ rest,
        s.fontRepository p.Font.Family = Except.ok (fonts p.Font.Family) :=
      fun p hp => hfonts p (List.mem_cons_of_mem _ hp)
    have hlen2 : i + 1 + rest.length ≤ text.length := by
      simp only [List.length_cons] at hlen
      omega
    have hno := drawTextField_no_error gg dc text[i] st (fonts st.Font.Family)
    have him := drawTextField_im gg dc text[i] st (fonts st.Font.Family)
    have hcalls := drawTextField_calls gg dc dc.im text[i] st (fonts st.Font.Family)
    unfold CreateMeme.loop
    simp only [hfont, hget]
    generalize drawTextField gg dc text[i] st (fonts st.Font.Family) = res at hno him hcalls
    obtain ⟨dc2, err⟩ := res
    simp only at hno him hcalls
    subst hno
    simp only
    rw [ih (i + 1) dc2 hrest hlen2, hdrop, him, hcalls]
    simp only [List.zip_cons_cons, List.flatMap_cons, List.append_assoc]

/-- When the fonts of the fields before `st` are found and that of `st` is not, the
loop returns the error of that lookup and a nil image. -/
theorem loop_first_error (gg : GG) (s : Service) (text : List String) (st : TextStyle)
    (post : List TextStyle) (e : Error)
    (herr : s.fontRepository st.Font.Family = Except.error e) (pre : List TextStyle) :
    ∀ (i : Nat) (dc : Context),
      (∀ p ∈ pre, ∃ f, s.fontRepository p.Font.Family = Except.ok f) →
      i + pre.length ≤ text.length →
      CreateMeme.loop gg s text i (pre ++ st :: post) dc = Outcome.returns none (some e) := by
  induction pre with
  | nil =>
    intro i dc _ _
    simp [CreateMeme.loop, herr]
  | cons p pre ih =>
    intro i dc hpre hlen
    have hi : i < text.length := by
      simp only [List.length_cons] at hlen
      omega
    have hget : text[i]? = some text[i] := List.getElem?_eq_getElem hi
    obtain ⟨f, hf⟩ := hpre p (List.mem_cons_self _ _)
    have hrest : ∀ q ∈ pre, ∃ f, s.fontRepository q.Font.Family = Except.ok f :=
      fun q hq => hpre q (List.mem_cons_of_mem _ hq)
    have hlen2 : i + 1 + pre.length ≤ text.length := by
      simp only [List.length_cons] at hlen
      omega
    have hno := drawTextField_no_error gg dc text[i] p f
    simp only [List.cons_append]
    unfold CreateMeme.loop
    simp only [hf, hget]
    generalize drawTextField gg dc text[i] p f = res at hno
    obtain ⟨dc2, err⟩ := res
    simp only at hno
    subst hno
    simp only
    exact ih (i + 1) dc2 hrest hlen2

/-- Either every font of a list of fields is found, or there is a first field whose
font is not. -/
theorem fonts_dichotomy (s : Service) (styles : List TextStyle) :
    (∀ st ∈ styles, ∃ f, s.fontRepository st.Font.Family = Except.ok f) ∨
      ∃ pre st post e, styles = pre ++ st :: post ∧
        (∀ p ∈ pre, ∃ f, s.fontRepository p.Font.Family = Except.ok f) ∧
        s.fontRepository st.Font.Family = Except.error e := by
  induction styles with
  | nil => left; simp
  | cons st rest ih =>
    cases hst : s.fontRepository st.Font.Family with
    | error e =>
      right
      exact ⟨[], st, rest, e, rfl, by simp, hst⟩
    | ok f =>
      rcases ih with hall | ⟨pre, st2, post, e, hsplit, hpre, herr⟩
      · left
        intro q hq
        rcases List.mem_cons.mp hq with rfl | hq
        · exact ⟨f, hst⟩
        · exact hall q hq
      · right
        refine ⟨st :: pre, st2, post, e, by simp [hsplit], ?_, herr⟩
        intro q hq
        rcases List.mem_cons.mp hq with rfl | hq
        · exact ⟨f, hst⟩
        · exact hpre q hq

/-- On a family the repository holds, `fontOr` is the font held. -/
theorem fontOr_spec (s : Service) (family : String) (f : TruetypeFont)
    (h : s.fontRepository family = Except.ok f) :
    s.fontRepository family = Except.ok (fontOr s family) := by
  simp [fontOr, h]

/-- The loop reads the text list only at the indices of the fields it visits. -/
theorem loop_text_congr (gg : GG) (s : Service) (text text2 : List String)
    (styles : List TextStyle) :
    ∀ (i : Nat) (dc : Context),
      (∀ j, i ≤ j → j < i + styles.length → text[j]? = text2[j]?) →
      CreateMeme.loop gg s text i styles dc = CreateMeme.loop gg s text2 i styles dc := by
  induction styles with
  | nil =>
    intro i dc _
    simp [CreateMeme.loop]
  | cons st rest ih =>
    intro i dc h
    have hi : text[i]? = text2[i]? := h i (le_refl _) (by simp)
    have hrest : ∀ j, i + 1 ≤ j → j < i + 1 + rest.length → text[j]? = text2[j]? := by
      intro j h1 h2
      apply h j (by omega)
      simp only [List.length_cons]
      omega
    unfold CreateMeme.loop
    simp only [hi]
    cases s.fontRepository st.Font.Family with
    | error e => rfl
    | ok f =>
      simp only
      cases text2[i]? with
      | none => rfl
      | some t =>
        simp only
        generalize drawTextField gg dc t st f = res
        obtain ⟨dc2, err⟩ := res
        cases err with
        | some e => rfl
        | none => exact ih (i + 1) dc2 hrest

/-! ## Supporting facts for the claims -/

/-- The draws of a rotation scope are the draws of its body. -/
theorem filter_isDraw_rotationScope (gg : GG) (style : TextStyle) (ax ay : Nat)
    (body : List Call) :
    (rotationScope gg style ax ay body).filter Call.isDraw = body.filter Call.isDraw := by
  unfold rotationScope
  cases style.Rotation with
  | none => rfl
  | some rotation => simp [List.filter_cons, List.filter_append, Call.isDraw]

/-- The draws of the outline pass are the stroke draws of the selected offsets. -/
theorem filter_isDraw_strokeCalls (gg : GG) (face : FontFace) (text : String)
    (style : TextStyle) (ax ay : Nat) (stroke : Stroke) (h : style.Stroke = some stroke) :
    (strokeCalls gg face text style ax ay).filter Call.isDraw =
      (strokeOffsets stroke.Size).map (strokeDraw stroke face text style ax ay) := by
  simp only [strokeCalls, h, List.filter_flatMap, filter_isDraw_rotationScope]
  induction strokeOffsets stroke.Size with
  | nil => rfl
  | cons d ds ih =>
    rw [List.flatMap_cons, List.map_cons, ih]
    rfl

/-- Within the `uint16` range the wrapped sum is the integer sum. -/
theorem uint16_add_exact (a : Nat) (d : Int) (h1 : 0 ≤ (a : Int) + d)
    (h2 : (a : Int) + d ≤ 65535) : ((add16 a (uint16 d) : Nat) : Int) = (a : Int) + d := by
  unfold add16 uint16
  omega

/-- The template of two fields with one input string: the run aborts on `text[1]`
after the first field has been drawn. -/
theorem createMeme_short_text_faults :
    CreateMeme wideGG testService twoButtons ["a"] =
      Outcome.indexOutOfRange
        { im := ⟨"two-buttons"⟩,
          fontFace := FontFace.truetype ⟨"arial.ttf"⟩ 20,
          color := some "#000000",
          calls := [Call.RotateAbout (wideGG.Radians (-10)) 130 130,
            blockDraw "#000000" (FontFace.truetype ⟨"arial.ttf"⟩ 20) "a" leftButton 130 130,
            Call.RotateAbout (-(wideGG.Radians (-10))) 130 130] } := by
  simp [CreateMeme, CreateMeme.loop, testService, twoButtons, leftButton, rightButton,
    NewContextForImage, drawTextField_eq, fieldCalls, strokeCalls, rotationScope, blockDraw,
    getAnchorCoordinates, Context.SetFontFace, Context.WordWrap, wideGG, add16, mul16, uint16]

/-! ## C1 -/

/-- C1, counterexample: the template `two-buttons` (two fields) with three input
strings. `CreateMeme` returns the finished image and no error, with both fields
drawn; the third string is ignored. -/
theorem createMeme_surplus_text_accepted :
    (["a", "b", "c"] : List String).length ≠ twoButtons.TextStyles.length ∧
    CreateMeme wideGG testService twoButtons ["a", "b", "c"] =
      Outcome.returns (some
        { im := ⟨"two-buttons"⟩,
          calls := [Call.RotateAbout (wideGG.Radians (-10)) 130 130,
            blockDraw "#000000" (FontFace.truetype ⟨"arial.ttf"⟩ 20) "a" leftButton 130 130,
            Call.RotateAbout (-(wideGG.Radians (-10))) 130 130,
            Call.RotateAbout (wideGG.Radians (-10)) 295 100,
            blockDraw "#000000" (FontFace.truetype ⟨"arial.ttf"⟩ 20) "b" rightButton 295 100,
            Call.RotateAbout (-(wideGG.Radians (-10))) 295 100] }) none := by
  refine ⟨by decide, ?_⟩
  simp [CreateMeme, CreateMeme.loop, testService, twoButtons, leftButton, rightButton,
    NewContextForImage, drawTextField_eq, fieldCalls, strokeCalls, rotationScope, blockDraw,
    getAnchorCoordinates, Context.SetFontFace, Context.WordWrap, Context.Image, wideGG,
    add16, mul16, uint16]

/-- C1, as amended: when the text list has at least as many strings as the template
has text styles, `CreateMeme` does not fault on an index: it behaves as on the first
`n` strings (the surplus is ignored) and returns either an error that the image lookup
or a font lookup returned, with a nil image, or the finished image with no error. -/
theorem createMeme_ignores_surplus_text (gg : GG) (s : Service) (template : Template)
    (text : List String) (h : template.TextStyles.length ≤ text.length) :
    CreateMeme gg s template text =
        CreateMeme gg s template (text.take template.TextStyles.length) ∧
      ∃ img err, CreateMeme gg s template text = Outcome.returns img err ∧
        (∀ e, err = some e → img = none ∧
          (s.imageRepository template.Image.ID = Except.error e ∨
            ∃ st ∈ template.TextStyles, s.fontRepository st.Font.Family = Except.error e)) ∧
        (err = none → ∃ r, img = some r) := by
  constructor
  · unfold CreateMeme
    cases s.imageRepository template.Image.ID with
    | error e => rfl
    | ok img =>
      simp only
      apply loop_text_congr
      intro j _ hj
      have hj2 : j < template.TextStyles.length := by omega
      rw [List.getElem?_take_of_lt hj2]
  · unfold CreateMeme
    cases himg : s.imageRepository template.Image.ID with
    | error e =>
      refine ⟨none, some e, rfl, ?_, by simp⟩
      intro e2 he2
      cases he2
      exact ⟨rfl, Or.inl rfl⟩
    | ok img =>
      simp only
      rcases fonts_dichotomy s template.TextStyles with hall | ⟨pre, st, post, e, hs, hpre, he⟩
      · have hfonts : ∀ st ∈ template.TextStyles,
            s.fontRepository st.Font.Family = Except.ok (fontOr s st.Font.Family) := by
          intro st hst
          obtain ⟨f, hf⟩ := hall st hst
          exact fontOr_spec s _ f hf
        rw [loop_all_ok gg s text (fontOr s) template.TextStyles 0 _ hfonts (by omega)]
        exact ⟨_, none, rfl, by simp, fun _ => ⟨_, rfl⟩⟩
      · have hlen : 0 + pre.length ≤ text.length := by
          have : pre.length ≤ template.TextStyles.length := by
            rw [hs]
            simp
          omega
        rw [hs, loop_first_error gg s text st post e he pre 0 _ hpre hlen]
        refine ⟨none, some e, rfl, ?_, by simp⟩
        intro e2 he2
        cases he2
        refine ⟨rfl, Or.inr ⟨st, ?_, he⟩⟩
        simp

/-- C1, witness: the template `yall-got-any-more-of-them` with three strings. -/
theorem createMeme_ignores_surplus_text_witness :
    yallGotAnyMoreOfThem.TextStyles.length ≤ (["x", "y", "z"] : List String).length ∧
    CreateMeme wideGG testService yallGotAnyMoreOfThem ["x", "y", "z"] =
      CreateMeme wideGG testService yallGotAnyMoreOfThem
        ((["x", "y", "z"] : List String).take yallGotAnyMoreOfThem.TextStyles.length) :=
  ⟨by decide,
   (createMeme_ignores_surplus_text wideGG testService yallGotAnyMoreOfThem ["x", "y", "z"]
      (by decide)).1⟩

/-! ## C2 -/

/-- C2, counterexample: a field with `X = 65535` and `Width = 2`. The sum
`X + Width / 2` is `65536`, and `getAnchorCoordinates` returns `x = 0`. -/
theorem getAnchorCoordinates_overflow :
    getAnchorCoordinates wideGG (NewContextForImage ⟨"bg"⟩) "x" farField = (0, 50, none) ∧
    (getAnchorCoordinates wideGG (NewContextForImage ⟨"bg"⟩) "x" farField).1 ≠
      farField.X + farField.Width / 2 := by
  decide

/-- C2, as amended: `getAnchorCoordinates` returns `x = (X + Width / 2) mod 65536` and
`y = (Y + (Font.Size / 2) * lineCount) mod 65536` and no error, where `lineCount` is the
number of lines word wrapping produces for the text at `Width` under the current face;
these are the exact sums whenever the sums are below `65536`; for the field
`{x:10, y:10, width:580}` with font size 40 wrapped to 2 lines the anchor is `(300, 50)`. -/
theorem getAnchorCoordinates_mod (gg : GG) (dc : Context) (text : String) (style : TextStyle) :
    getAnchorCoordinates gg dc text style =
        ((style.X + style.Width / 2) % 65536,
         (style.Y + (style.Font.Size / 2) *
            (gg.WordWrap dc.fontFace text style.Width).length) % 65536,
         none) ∧
      (style.X + style.Width / 2 < 65536 →
        style.Y + (style.Font.Size / 2) *
            (gg.WordWrap dc.fontFace text style.Width).length < 65536 →
        getAnchorCoordinates gg dc text style =
          (style.X + style.Width / 2,
           style.Y + (style.Font.Size / 2) * (gg.WordWrap dc.fontFace text style.Width).length,
           none)) ∧
      (style.X = 10 → style.Y = 10 → style.Width = 580 → style.Font.Size = 40 →
        (gg.WordWrap dc.fontFace text style.Width).length = 2 →
        getAnchorCoordinates gg dc text style = (300, 50, none)) := by
  have hmain : getAnchorCoordinates gg dc text style =
        ((style.X + style.Width / 2) % 65536,
         (style.Y + (style.Font.Size / 2) *
            (gg.WordWrap dc.fontFace text style.Width).length) % 65536,
         none) := by
    simp only [getAnchorCoordinates, Context.WordWrap, add16, mul16, uint16, Prod.mk.injEq,
      and_true]
    constructor
    · rw [Nat.add_comm]
    · have h1 : ∀ n : Nat, (((n : Int) % 65536).toNat) = n % 65536 := by
        intro n
        omega
      rw [h1, h1, ← Nat.mul_mod, Nat.add_mod_mod]
  refine ⟨hmain, ?_, ?_⟩
  · intro hx hy
    rw [hmain, Nat.mod_eq_of_lt hx, Nat.mod_eq_of_lt hy]
  · intro hx hy hw hs hl
    rw [hw] at hl
    rw [hmain, hx, hy, hw, hs, hl]

/-- C2, witness: the first field of `yall-got-any-more-of-them`, wrapped to two lines. -/
theorem getAnchorCoordinates_mod_witness :
    topField.X = 10 ∧ topField.Y = 10 ∧ topField.Width = 580 ∧ topField.Font.Size = 40 ∧
    (wideGG.WordWrap (NewContextForImage ⟨"bg"⟩).fontFace "TOP TEXT" topField.Width).length = 2 ∧
    getAnchorCoordinates wideGG (NewContextForImage ⟨"bg"⟩) "TOP TEXT" topField =
      (300, 50, none) :=
  ⟨rfl, rfl, rfl, rfl, rfl,
   (getAnchorCoordinates_mod wideGG (NewContextForImage ⟨"bg"⟩) "TOP TEXT" topField).2.2
      rfl rfl rfl rfl rfl⟩

/-! ## C3 -/

/-- C3: for a style with a stroke of radius `r`, the text draws `drawTextStroke` issues
are, one for one, the draws for the offsets of `strokeOffsets r`; this list has no
repetition and holds exactly the integer pairs `(dx, dy)` with `-r ≤ dx, dy ≤ r` and
`dx*dx + dy*dy < r*r`; radius 1 gives exactly one draw (only `(0, 0)`) and radius 2
gives exactly nine. -/
theorem drawTextStroke_offsets (gg : GG) (dc : Context) (text : String) (style : TextStyle)
    (stroke : Stroke) (ax ay : Nat) (h : style.Stroke = some stroke) :
    ∃ issued,
      drawTextStroke gg dc text style ax ay =
        ({ dc with color := some stroke.Color, calls := dc.calls ++ issued }, none) ∧
      issued.filter Call.isDraw =
        (strokeOffsets stroke.Size).map (strokeDraw stroke dc.fontFace text style ax ay) ∧
      (strokeOffsets stroke.Size).Nodup ∧
      (∀ dx dy : Int, (dx, dy) ∈ strokeOffsets stroke.Size ↔
        -(stroke.Size : Int) ≤ dx ∧ dx ≤ stroke.Size ∧
        -(stroke.Size : Int) ≤ dy ∧ dy ≤ stroke.Size ∧
        dx * dx + dy * dy < (stroke.Size : Int) * stroke.Size) ∧
      (stroke.Size = 1 →
        strokeOffsets stroke.Size = [(0, 0)] ∧ (issued.filter Call.isDraw).length = 1) ∧
      (stroke.Size = 2 → (issued.filter Call.isDraw).length = 9) := by
  refine ⟨strokeCalls gg dc.fontFace text style ax ay, ?_, ?_, nodup_strokeOffsets _,
    mem_strokeOffsets _, ?_, ?_⟩
  · rw [drawTextStroke_eq, h]
  · exact filter_isDraw_strokeCalls gg dc.fontFace text style ax ay stroke h
  · intro h1
    rw [filter_isDraw_strokeCalls gg dc.fontFace text style ax ay stroke h, h1,
      strokeOffsets_one]
    exact ⟨rfl, rfl⟩
  · intro h2
    rw [filter_isDraw_strokeCalls gg dc.fontFace text style ax ay stroke h, h2,
      List.length_map, strokeOffsets_two]

/-- C3, witness: the field `edgeField`, whose stroke has radius 2, issues nine draws. -/
theorem drawTextStroke_offsets_witness :
    edgeField.Stroke = some ⟨2, "#000000"⟩ ∧
    ∃ issued,
      drawTextStroke wideGG (NewContextForImage ⟨"bg"⟩) "x" edgeField 0 100 =
        ({ NewContextForImage ⟨"bg"⟩ with
            color := some "#000000",
            calls := (NewContextForImage ⟨"bg"⟩).calls ++ issued }, none) ∧
      (issued.filter Call.isDraw).length = 9 :=
  ⟨rfl, by
    obtain ⟨issued, h1, _, _, _, _, h6⟩ :=
      drawTextStroke_offsets wideGG (NewContextForImage ⟨"bg"⟩) "x" edgeField
        ⟨2, "#000000"⟩ 0 100 rfl
    exact ⟨issued, h1, h6 rfl⟩⟩

/-- Within the `uint16` range every selected offset is drawn at the integer point
`(anchorX + dx, anchorY + dy)`. -/
theorem drawTextStroke_positions (gg : GG) (dc : Context) (text : String) (style : TextStyle)
    (stroke : Stroke) (ax ay : Nat) (h : style.Stroke = some stroke) :
    ∃ issued,
      (drawTextStroke gg dc text style ax ay).1.calls = dc.calls ++ issued ∧
      issued.filter Call.isDraw =
        (strokeOffsets stroke.Size).map (strokeDraw stroke dc.fontFace text style ax ay) ∧
      ∀ d ∈ strokeOffsets stroke.Size,
        0 ≤ (ax : Int) + d.1 → (ax : Int) + d.1 ≤ 65535 →
        0 ≤ (ay : Int) + d.2 → (ay : Int) + d.2 ≤ 65535 →
        strokeDraw stroke dc.fontFace text style ax ay d =
          blockDraw stroke.Color dc.fontFace text style
            ((ax : Int) + d.1).toNat ((ay : Int) + d.2).toNat := by
  refine ⟨strokeCalls gg dc.fontFace text style ax ay, ?_,
    filter_isDraw_strokeCalls gg dc.fontFace text style ax ay stroke h, ?_⟩
  · rw [drawTextStroke_eq]
  · intro d _ hx1 hx2 hy1 hy2
    have hx := uint16_add_exact ax d.1 hx1 hx2
    have hy := uint16_add_exact ay d.2 hy1 hy2
    unfold strokeDraw
    congr 1 <;> omega

/-! ## C4 -/

/-- C4: the text block for a selected offset `(dx, dy)` is to be drawn at the point
`(anchorX + dx, anchorY + dy)`, a negative `dx` moving it left of the anchor. At the
failing input, the field `cornerField` (stroke radius 2) with anchor `(0, 100)`, the
three selected offsets with `dx = -1` are drawn at abscissa `65535`, which is not
`0 + (-1)`: the sum `anchorX + uint16(x)` wraps. The other six draws are where the
claim puts them. -/
theorem drawTextStroke_wraps_left_of_zero :
    strokeOffsets 2 =
      [(-1, -1), (0, -1), (1, -1), (-1, 0), (0, 0), (1, 0), (-1, 1), (0, 1), (1, 1)] ∧
    (drawTextStroke wideGG (NewContextForImage ⟨"bg"⟩) "x" cornerField 0 100).1.calls =
      [blockDraw "#000000" FontFace.basic "x" cornerField 65535 99,
       blockDraw "#000000" FontFace.basic "x" cornerField 0 99,
       blockDraw "#000000" FontFace.basic "x" cornerField 1 99,
       blockDraw "#000000" FontFace.basic "x" cornerField 65535 100,
       blockDraw "#000000" FontFace.basic "x" cornerField 0 100,
       blockDraw "#000000" FontFace.basic "x" cornerField 1 100,
       blockDraw "#000000" FontFace.basic "x" cornerField 65535 101,
       blockDraw "#000000" FontFace.basic "x" cornerField 0 101,
       blockDraw "#000000" FontFace.basic "x" cornerField 1 101] ∧
    ((65535 : Nat) : Int) ≠ ((0 : Nat) : Int) + (-1) := by
  have hoff : strokeOffsets 2 =
      [(-1, -1), (0, -1), (1, -1), (-1, 0), (0, 0), (1, 0), (-1, 1), (0, 1), (1, 1)] := by
    decide
  refine ⟨hoff, ?_, by decide⟩
  have hs : cornerField.Stroke = some ⟨2, "#000000"⟩ := rfl
  rw [drawTextStroke_eq]
  simp only [strokeCalls, hs, hoff]
  rfl

/-! ## C6 -/

/-- C6: for every field, `drawTextField` returns no error and the text draws it issues
are, in this order, the stroke-offset draws in the stroke colour (none when the style
has no stroke) and then exactly one fill draw in `style.Font.Color` at the anchor,
centred on it, wrapped at `style.Width`, with line spacing 1.5 and centre alignment. -/
theorem drawTextField_draw_order (gg : GG) (dc : Context) (text : String) (style : TextStyle)
    (font : TruetypeFont) :
    ∃ (issued : List Call) (ax ay : Nat),
      getAnchorCoordinates gg (dc.SetFontFace (FontFace.truetype font style.Font.Size))
        text style = (ax, ay, none) ∧
      (drawTextField gg dc text style font).2 = none ∧
      (drawTextField gg dc text style font).1.calls = dc.calls ++ issued ∧
      issued.filter Call.isDraw =
        (match style.Stroke with
          | some stroke =>
            (strokeOffsets stroke.Size).map
              (strokeDraw stroke (FontFace.truetype font style.Font.Size) text style ax ay)
          | none => []) ++
        [Call.DrawStringWrapped (some style.Font.Color)
          (FontFace.truetype font style.Font.Size) text ax ay (1/2) (1/2) style.Width (3/2)
          Align.AlignCenter] := by
  refine ⟨fieldCalls gg (FontFace.truetype font style.Font.Size) text style
      (getAnchorCoordinates gg (dc.SetFontFace (FontFace.truetype font style.Font.Size))
        text style).1
      (getAnchorCoordinates gg (dc.SetFontFace (FontFace.truetype font style.Font.Size))
        text style).2.1,
    (getAnchorCoordinates gg (dc.SetFontFace (FontFace.truetype font style.Font.Size))
        text style).1,
    (getAnchorCoordinates gg (dc.SetFontFace (FontFace.truetype font style.Font.Size))
        text style).2.1, rfl, drawTextField_no_error gg dc text style font, ?_, ?_⟩
  · rw [drawTextField_eq]
  · simp only [fieldCalls, List.filter_append, filter_isDraw_rotationScope]
    cases hs : style.Stroke with
    | none => simp [strokeCalls, hs, blockDraw, Call.isDraw]
    | some stroke =>
      rw [filter_isDraw_strokeCalls gg _ text style _ _ stroke hs]
      simp [blockDraw, Call.isDraw]

/-! ## C7 -/

/-- C7: for a text list of matching length, `CreateMemeFromTemplateID` returns (it does
not fault), and it returns an error if and only if the template lookup fails, the
background-image lookup fails, or the font lookup fails for some field; in that case the
image is nil and the error is the one returned by the first lookup that fails; otherwise
the image is not nil and there is no error. -/
theorem createMemeFromTemplateID_error_iff (gg : GG) (s : Service) (templateID : String)
    (text : List String)
    (hlen : ∀ t, s.templateRepository templateID = Except.ok t →
      text.length = t.TextStyles.length) :
    ∃ img err, CreateMemeFromTemplateID gg s templateID text = Outcome.returns img err ∧
      (err ≠ none ↔ LookupFails s templateID) ∧
      (∀ e, err = some e → img = none ∧ FirstFailure s templateID e) ∧
      (err = none → img ≠ none) := by
  unfold CreateMemeFromTemplateID
  cases ht : s.templateRepository templateID with
  | error e =>
    refine ⟨none, some e, rfl, ?_, ?_, by simp⟩
    · simp only [ne_eq, reduceCtorEq, not_false_eq_true, true_iff]
      exact Or.inl ⟨e, ht⟩
    · intro e2 he2
      cases he2
      exact ⟨rfl, Or.inl ht⟩
  | ok t =>
    have hl := hlen t ht
    simp only
    unfold CreateMeme
    cases himg : s.imageRepository t.Image.ID with
    | error e =>
      refine ⟨none, some e, rfl, ?_, ?_, by simp⟩
      · simp only [ne_eq, reduceCtorEq, not_false_eq_true, true_iff]
        exact Or.inr ⟨t, ht, Or.inl ⟨e, himg⟩⟩
      · intro e2 he2
        cases he2
        exact ⟨rfl, Or.inr ⟨t, ht, Or.inl himg⟩⟩
    | ok img =>
      simp only
      rcases fonts_dichotomy s t.TextStyles with hall | ⟨pre, st, post, e, hs, hpre, he⟩
      · have hfonts : ∀ st ∈ t.TextStyles,
            s.fontRepository st.Font.Family = Except.ok (fontOr s st.Font.Family) := by
          intro st hst
          obtain ⟨f, hf⟩ := hall st hst
          exact fontOr_spec s _ f hf
        rw [loop_all_ok gg s text (fontOr s) t.TextStyles 0 _ hfonts (by omega)]
        refine ⟨_, none, rfl, ?_, by simp, by simp⟩
        simp only [ne_eq, not_true_eq_false, false_iff]
        rintro (⟨e, he⟩ | ⟨t2, ht2, hcase⟩)
        · rw [ht] at he
          cases he
        · rw [ht] at ht2
          cases ht2
          rcases hcase with ⟨e, he⟩ | ⟨st, hst, e, he⟩
          · rw [himg] at he
            cases he
          · obtain ⟨f, hf⟩ := hall st hst
            rw [hf] at he
            cases he
      · have hlen2 : 0 + pre.length ≤ text.length := by
          have : pre.length ≤ t.TextStyles.length := by
            rw [hs]
            simp
          omega
        rw [hs, loop_first_error gg s text st post e he pre 0 _ hpre hlen2]
        refine ⟨none, some e, rfl, ?_, ?_, by simp⟩
        · simp only [ne_eq, reduceCtorEq, not_false_eq_true, true_iff]
          refine Or.inr ⟨t, ht, Or.inr ⟨st, ?_, e, he⟩⟩
          rw [hs]
          simp
        · intro e2 he2
          cases he2
          exact ⟨rfl, Or.inr ⟨t, ht, Or.inr ⟨⟨img, himg⟩, pre, st, post, hs, hpre, he⟩⟩⟩

/-- C7, witness: the two cases of `TestService_CreateMemeFromTemplateID`, the unknown
identifier `not-real` and the template `yall-got-any-more-of-them`, each with two
strings. -/
theorem createMemeFromTemplateID_error_iff_witness :
    ((∀ t, testService.templateRepository "not-real" = Except.ok t →
        (["test", "test"] : List String).length = t.TextStyles.length) ∧
      ∃ img err,
        CreateMemeFromTemplateID wideGG testService "not-real" ["test", "test"] =
          Outcome.returns img err ∧
        (err ≠ none ↔ LookupFails testService "not-real") ∧
        (∀ e, err = some e → img = none ∧ FirstFailure testService "not-real" e) ∧
        (err = none → img ≠ none)) ∧
    ((∀ t, testService.templateRepository "yall-got-any-more-of-them" = Except.ok t →
        (["test", "test"] : List String).length = t.TextStyles.length) ∧
      ∃ img err,
        CreateMemeFromTemplateID wideGG testService "yall-got-any-more-of-them"
            ["test", "test"] = Outcome.returns img err ∧
        (err ≠ none ↔ LookupFails testService "yall-got-any-more-of-them") ∧
        (∀ e, err = some e →
          img = none ∧ FirstFailure testService "yall-got-any-more-of-them" e) ∧
        (err = none → img ≠ none)) :=
  ⟨⟨fun t ht => by simp [testService] at ht,
    createMemeFromTemplateID_error_iff wideGG testService "not-real" ["test", "test"]
      (fun t ht => by simp [testService] at ht)⟩,
   ⟨fun t ht => by
      simp only [testService, if_true, Except.ok.injEq] at ht
      rw [← ht]
      rfl,
    createMemeFromTemplateID_error_iff wideGG testService "yall-got-any-more-of-them"
      ["test", "test"]
      (fun t ht => by
        simp only [testService, if_true, Except.ok.injEq] at ht
        rw [← ht]
        rfl)⟩⟩

/-! ## C8 -/

/-- C8: for a template whose background image and fonts are all found and a text list
of the same length as its text styles, `CreateMeme` returns the image whose recorded
calls are the concatenation, over the pairs `(style i, text[i])` for `i = 0, 1, ..., n-1`
in that order, of the calls `drawTextField` issues for that field; there is one group per
field, and the i-th pair is the i-th style with the i-th string. -/
theorem createMeme_field_order (gg : GG) (s : Service) (template : Template)
    (text : List String) (img : Image) (fonts : String → TruetypeFont)
    (himg : s.imageRepository template.Image.ID = Except.ok img)
    (hfonts : ∀ st ∈ template.TextStyles,
      s.fontRepository st.Font.Family = Except.ok (fonts st.Font.Family))
    (hlen : text.length = template.TextStyles.length) :
    CreateMeme gg s template text =
        Outcome.returns (some
          { im := img,
            calls := (template.TextStyles.zip text).flatMap (fun p =>
              (drawTextField gg (NewContextForImage img) p.2 p.1
                (fonts p.1.Font.Family)).1.calls) }) none ∧
      (template.TextStyles.zip text).length = template.TextStyles.length ∧
      ∀ (i : Nat) (st : TextStyle) (t : String),
        template.TextStyles[i]? = some st → text[i]? = some t →
        (template.TextStyles.zip text)[i]? = some (st, t) := by
  refine ⟨?_, by simp [List.length_zip, hlen], ?_⟩
  · unfold CreateMeme
    rw [himg]
    simp only
    rw [loop_all_ok gg s text fonts template.TextStyles 0 _ hfonts (by omega)]
    simp [NewContextForImage]
  · intro i st t h1 h2
    simp [List.getElem?_zip_eq_some, h1, h2]

/-- C8, witness: the template `yall-got-any-more-of-them` with the texts of the test. -/
theorem createMeme_field_order_witness :
    testService.imageRepository yallGotAnyMoreOfThem.Image.ID =
      Except.ok ⟨"yall-got-any-more-of-them"⟩ ∧
    (∀ st ∈ yallGotAnyMoreOfThem.TextStyles,
      testService.fontRepository st.Font.Family = Except.ok ⟨"impact.ttf"⟩) ∧
    (["test", "test"] : List String).length = yallGotAnyMoreOfThem.TextStyles.length ∧
    CreateMeme wideGG testService yallGotAnyMoreOfThem ["test", "test"] =
      Outcome.returns (some
        { im := ⟨"yall-got-any-more-of-them"⟩,
          calls := (yallGotAnyMoreOfThem.TextStyles.zip ["test", "test"]).flatMap (fun p =>
            (drawTextField wideGG (NewContextForImage ⟨"yall-got-any-more-of-them"⟩) p.2 p.1
              ⟨"impact.ttf"⟩).1.calls) }) none :=
  ⟨rfl, by simp [yallGotAnyMoreOfThem, topField, bottomField, testService], rfl,
   (createMeme_field_order wideGG testService yallGotAnyMoreOfThem ["test", "test"]
      ⟨"yall-got-any-more-of-them"⟩ (fun _ => ⟨"impact.ttf"⟩) rfl
      (by simp [yallGotAnyMoreOfThem, topField, bottomField, testService]) rfl).1⟩

/-- The body of a rotation scope is part of the scope. -/
theorem mem_rotationScope (gg : GG) (style : TextStyle) (ax ay : Nat) (body : List Call)
    (c : Call) (hc : c ∈ body) : c ∈ rotationScope gg style ax ay body := by
  unfold rotationScope
  cases style.Rotation with
  | none => exact hc
  | some rotation => simp [hc]

/-- Wrapping each of `n` draws between two rotations issues `2 * n` rotations. -/
theorem rotate_count (r1 r2 : Call) (h1 : r1.isRotate = true) (h2 : r2.isRotate = true)
    (draws : List Call) (hd : ∀ c ∈ draws, c.isRotate = false) :
    ((draws.flatMap (fun draw => [r1, draw, r2])).filter Call.isRotate).length =
      2 * draws.length := by
  induction draws with
  | nil => rfl
  | cons d ds ih =>
    have hd0 : d.isRotate = false := hd d (List.mem_cons_self _ _)
    have hds : ∀ c ∈ ds, c.isRotate = false := fun c hc => hd c (List.mem_cons_of_mem _ hc)
    simp only [List.flatMap_cons, List.filter_append, List.length_append, ih hds,
      List.filter_cons, h1, h2, hd0, List.filter_nil, List.length_cons, List.length_nil,
      if_true]
    simp only [Bool.false_eq_true, if_false, List.length_cons, List.length_nil]
    omega

/-! ## C9 -/

/-- C9: for a style with both a stroke and a rotation, the calls `drawTextField` issues
are, for each stroke-offset draw in turn and then for the fill draw, the rotation by
`Radians(style.Rotation.Degrees)` about the anchor `(ax, ay)`, the draw, and the
opposite rotation about the same anchor; the pivot is never the offset point; the number
of such scopes is the number of stroke offsets plus one, and twice as many rotations
are issued. -/
theorem drawTextField_rotation_scopes (gg : GG) (dc : Context) (text : String)
    (style : TextStyle) (font : TruetypeFont) (stroke : Stroke) (rotation : Rotation)
    (hs : style.Stroke = some stroke) (hr : style.Rotation = some rotation) :
    ∃ (issued draws : List Call) (ax ay : Nat),
      getAnchorCoordinates gg (dc.SetFontFace (FontFace.truetype font style.Font.Size))
        text style = (ax, ay, none) ∧
      (drawTextField gg dc text style font).1.calls = dc.calls ++ issued ∧
      draws =
        (strokeOffsets stroke.Size).map
            (strokeDraw stroke (FontFace.truetype font style.Font.Size) text style ax ay) ++
          [blockDraw style.Font.Color (FontFace.truetype font style.Font.Size) text style
            ax ay] ∧
      issued = draws.flatMap (fun draw =>
        [Call.RotateAbout (gg.Radians rotation.Degrees) ax ay, draw,
         Call.RotateAbout (-(gg.Radians rotation.Degrees)) ax ay]) ∧
      draws.length = (strokeOffsets stroke.Size).length + 1 ∧
      (issued.filter Call.isRotate).length = 2 * ((strokeOffsets stroke.Size).length + 1) := by
  refine ⟨_, _,
    (getAnchorCoordinates gg (dc.SetFontFace (FontFace.truetype font style.Font.Size))
        text style).1,
    (getAnchorCoordinates gg (dc.SetFontFace (FontFace.truetype font style.Font.Size))
        text style).2.1, rfl, ?_, rfl, rfl, by simp, ?_⟩
  · rw [drawTextField_eq]
    simp only [fieldCalls, strokeCalls, hs, rotationScope, hr, List.flatMap_append,
      List.flatMap_map, List.flatMap_cons, List.flatMap_nil, List.append_nil,
      List.singleton_append, List.cons_append, List.nil_append]
  · rw [rotate_count (Call.RotateAbout (gg.Radians rotation.Degrees) _ _)
      (Call.RotateAbout (-(gg.Radians rotation.Degrees)) _ _) rfl rfl]
    · simp
    · intro c hc
      rcases List.mem_append.mp hc with h | h
      · obtain ⟨d, _, rfl⟩ := List.mem_map.mp h
        rfl
      · rw [List.mem_singleton.mp h]
        rfl

/-- C9, witness: the field `edgeField` (stroke radius 2, rotation 90 degrees): ten
scopes, twenty rotations. -/
theorem drawTextField_rotation_scopes_witness :
    edgeField.Stroke = some ⟨2, "#000000"⟩ ∧ edgeField.Rotation = some ⟨90⟩ ∧
    ∃ issued : List Call,
      (drawTextField wideGG (NewContextForImage ⟨"bg"⟩) "x" edgeField ⟨"impact.ttf"⟩).1.calls =
        (NewContextForImage ⟨"bg"⟩).calls ++ issued ∧
      (issued.filter Call.isRotate).length = 2 * ((strokeOffsets 2).length + 1) :=
  ⟨rfl, rfl, by
    obtain ⟨issued, _, _, _, _, h2, _, _, _, h6⟩ :=
      drawTextField_rotation_scopes wideGG (NewContextForImage ⟨"bg"⟩) "x" edgeField
        ⟨"impact.ttf"⟩ ⟨2, "#000000"⟩ ⟨90⟩ rfl rfl
    exact ⟨issued, h2, h6⟩⟩

/-! ## C10 -/

/-- C10: `drawTextStroke` draws each selected offset `(dx, dy)` at the abscissa
`anchorX + uint16(dx)` and the ordinate `anchorY + uint16(dy)` computed modulo `65536`;
a negative `dx` not below `-65536` converts to `65536 + dx`; whenever
`0 ≤ anchor + d ≤ 65535` the wrapped result is the exact integer `anchor + d`; and for
the anchor 0 and the offset `dx = -1`, which radius 2 selects, the computed coordinate
is `65535`. -/
theorem strokeCoordinate_wraps :
    (∀ (gg : GG) (dc : Context) (text : String) (style : TextStyle) (stroke : Stroke)
        (ax ay : Nat), style.Stroke = some stroke →
        ∀ d ∈ strokeOffsets stroke.Size,
          Call.DrawStringWrapped (some stroke.Color) dc.fontFace text
              ((ax + (d.1 % 65536).toNat) % 65536) ((ay + (d.2 % 65536).toNat) % 65536)
              (1/2) (1/2) style.Width (3/2) Align.AlignCenter ∈
            (drawTextStroke gg dc text style ax ay).1.calls) ∧
    (∀ d : Int, -65536 ≤ d → d < 0 → ((uint16 d : Nat) : Int) = 65536 + d) ∧
    (∀ (a : Nat) (d : Int), 0 ≤ (a : Int) + d → (a : Int) + d ≤ 65535 →
      ((add16 a (uint16 d) : Nat) : Int) = (a : Int) + d) ∧
    (((-1 : Int), (0 : Int)) ∈ strokeOffsets 2 ∧ add16 0 (uint16 (-1)) = 65535) := by
  refine ⟨?_, ?_, uint16_add_exact, by decide, by decide⟩
  · intro gg dc text style stroke ax ay hs d hd
    rw [drawTextStroke_eq]
    apply List.mem_append_right
    simp only [strokeCalls, hs, List.mem_flatMap]
    refine ⟨d, hd, mem_rotationScope gg style ax ay _ _ ?_⟩
    simp [strokeDraw, blockDraw, add16, uint16]
  · intro d h1 h2
    unfold uint16
    omega

/-- C10, witness: at the anchor abscissa 300 the offset `-4` gives 296, and the offset
`-4` converts to `65532`. -/
theorem strokeCoordinate_wraps_witness :
    (-65536 ≤ (-4 : Int) ∧ (-4 : Int) < 0 ∧ ((uint16 (-4) : Nat) : Int) = 65536 + (-4)) ∧
    (0 ≤ ((300 : Nat) : Int) + (-4) ∧ ((300 : Nat) : Int) + (-4) ≤ 65535 ∧
      ((add16 300 (uint16 (-4)) : Nat) : Int) = ((300 : Nat) : Int) + (-4)) :=
  ⟨⟨by decide, by decide, strokeCoordinate_wraps.2.1 (-4) (by decide) (by decide)⟩,
   ⟨by decide, by decide, strokeCoordinate_wraps.2.2.1 300 (-4) (by decide) (by decide)⟩⟩

end Memepen
